import Mathlib

/-
  Verification development for the drawio-desktop-dev repository.

  Shallow embedding of:
  - src/utils/security.js        (path validation, filename sanitizing, content validation)
  - src/services/FileService.js  (magic-byte content check, save with backup,
                                  conflict detection, write verification, drafts)
  - src/ipc/handlers.js          (boundary dispatcher for the rendererReq channel)

  Modelling conventions:
  - JS strings are Lean String (indexing differences with UTF-16 are noted where relevant).
  - The filesystem is an explicit association list from path to entry, passed as state.
  - Node path functions are modelled for absolute POSIX paths; process.cwd() is an
    explicit parameter called cwd wherever path.resolve can consult it.
  - Disk writes that the code verifies by read-back are driven by an explicit
    environment giving, per attempt, the content that actually lands on disk.
-/

set_option maxRecDepth 4000

namespace Drawio

/-! ## Basic string helpers -/

/-- Membership-based model of the JS String.startsWith used by the code:
strStartsWith s pre is true when pre is a prefix of s. -/
def strStartsWith (s pre : String) : Bool :=
  pre.data.isPrefixOf s.data

/-- Substring containment over char lists: needle occurs contiguously in hay. -/
def containsSub (needle hay : List Char) : Bool :=
  hay.tails.any (fun t => needle.isPrefixOf t)

/-- Case folding for the case-insensitive regex flags (ASCII is all the code needs). -/
def lowerChars (l : List Char) : List Char :=
  l.map Char.toLower

/-- Case-insensitive substring containment, for the /i regex flags. -/
def containsSubCI (needle hay : List Char) : Bool :=
  containsSub (lowerChars needle) (lowerChars hay)

/-! ## POSIX path model (path.resolve, path.dirname, path.basename, path.join) -/

/-- Segment processing shared by path.normalize and path.resolve on absolute
paths: drops empty and dot segments and lets dot-dot pop the previous segment. -/
def resolveSegs (segs : List String) : List String :=
  segs.foldl
    (fun acc s =>
      if s = ".." then acc.dropLast
      else if s = "." ∨ s = "" then acc
      else acc ++ [s])
    []

/-- Split a char list at every occurrence of the separator char (the slash
splitting of a POSIX path). -/
def splitChars (sep : Char) : List Char → List (List Char)
  | [] => [[]]
  | c :: rest =>
    if c = sep then [] :: splitChars sep rest
    else
      match splitChars sep rest with
      | [] => [[c]]
      | h :: t => (c :: h) :: t

/-- Join strings with a separator. -/
def strIntercalate (sep : String) : List String → String
  | [] => ""
  | [s] => s
  | s :: t :: rest => s ++ sep ++ strIntercalate sep (t :: rest)

/-- Model of path.resolve for POSIX paths. A relative argument is resolved
against the explicit cwd parameter standing for process.cwd(). -/
def pathResolve (cwd p : String) : String :=
  let q := if strStartsWith p "/" then p else cwd ++ "/" ++ p
  "/" ++ strIntercalate "/" (resolveSegs ((splitChars '/' q.data).map String.mk))

/-- Everything after the last slash, as char list. -/
def baseNameChars (l : List Char) : List Char :=
  (l.reverse.takeWhile (fun ch => ch ≠ '/')).reverse

/-- Model of path.basename for simple POSIX paths. -/
def baseName (p : String) : String :=
  String.mk (baseNameChars p.data)

/-- Everything before the last slash (the slash dropped), with the POSIX
conventions for no slash (dot) and a root-only prefix (slash). -/
def dirNameChars (l : List Char) : List Char :=
  match l.reverse.dropWhile (fun ch => ch ≠ '/') with
  | [] => ['.']
  | _ :: t => if t = [] then ['/'] else t.reverse

/-- Model of path.dirname for simple POSIX paths. -/
def dirName (p : String) : String :=
  String.mk (dirNameChars p.data)

/-- Model of path.join for the two-argument sibling-name constructions the
code uses (directory part joined with a slash-free file name). -/
def pathJoin (a b : String) : String :=
  a ++ "/" ++ b

/-! ## security.js : SUSPICIOUS_PATTERNS, normalizePath, isValidPath, isOutsideAppDir -/

/-- SECURITY_CONFIG.MAX_FILE_SIZE : 100MB. -/
def MAX_FILE_SIZE : Nat := 100 * 1024 * 1024

/-- SECURITY_CONFIG.MAX_PATH_LENGTH. -/
def MAX_PATH_LENGTH : Nat := 4096

/-- The four SUSPICIOUS_PATTERNS regex tests of security.js applied to a string:
dot-dot (case sensitive), script tag opener, javascript scheme and html data URI
(the last three case insensitive, matching the /i flags in the source). -/
def suspicious (s : String) : Bool :=
  containsSub "..".data s.data ||
  containsSubCI "<script".data s.data ||
  containsSubCI "javascript:".data s.data ||
  containsSubCI "data:text/html".data s.data

/-- Control characters removed by normalizePath in security.js
(codes 0 to 31 and 127). -/
def isControlChar (ch : Char) : Bool :=
  ch.toNat ≤ 0x1f || ch.toNat = 0x7f

/-- The control-character stripping step of normalizePath in security.js.
The path.normalize step that follows it in the source is subsumed by the
pathResolve applied right after at every use site. -/
def stripControl (s : String) : String :=
  String.mk (s.data.filter (fun ch => !(isControlChar ch)))

/-- Embedding of isValidPath from security.js: length cap, then the suspicious
pattern tests applied to the RESOLVED path, then the allowed-prefix scan, each
prefix itself resolved. -/
def isValidPath (cwd : String) (filePath : String) (allowedPrefixes : List String) : Bool :=
  if filePath.length > MAX_PATH_LENGTH then false
  else
    let resolved := pathResolve cwd (stripControl filePath)
    if suspicious resolved then false
    else allowedPrefixes.any (fun pre => strStartsWith resolved (pathResolve cwd pre))

/-- Embedding of isOutsideAppDir from security.js. The application base
directory, computed in the source from the module URL, is the appBase
parameter. The check is a plain string startsWith on resolved paths. -/
def isOutsideAppDir (cwd appBase : String) (filePath : String) : Bool :=
  !(strStartsWith (pathResolve cwd (stripControl filePath)) (pathResolve cwd appBase))

/-- Directory containment in the sense of the spec sentence for
isOutsideProtectedDir: the resolved path equals the resolved base or sits
strictly below it (base followed by a separator). Stated from the spec words
to compare against the startsWith implementation. -/
def specUnderAppDir (cwd appBase : String) (filePath : String) : Bool :=
  let resolved := pathResolve cwd (stripControl filePath)
  let rbase := pathResolve cwd appBase
  resolved = rbase || strStartsWith resolved (rbase ++ "/")

/-! ## security.js : sanitizeFilename -/

/-- Path separator characters removed by the first replace of sanitizeFilename. -/
def isSepChar (ch : Char) : Bool :=
  ch = '/' || ch = '\\'

/-- Characters removed by the second replace of sanitizeFilename. -/
def isDangerChar (ch : Char) : Bool :=
  ch = '<' || ch = '>' || ch = ':' || ch = '"' || ch = '|' || ch = '?' || ch = '*'

/-- The JS regex whitespace class backslash-s (space, tab, line breaks, NBSP,
the ogham space mark, the unicode space block, the line and paragraph
separators, the narrow and medium spaces, the ideographic space and the BOM
char), used by the collapse and trim steps and by JS String.trim. -/
def isJsWs (ch : Char) : Bool :=
  ch.toNat ∈ [0x20, 0x09, 0x0a, 0x0b, 0x0c, 0x0d, 0xa0, 0x1680,
    0x2000, 0x2001, 0x2002, 0x2003, 0x2004, 0x2005, 0x2006, 0x2007,
    0x2008, 0x2009, 0x200a, 0x2028, 0x2029, 0x202f, 0x205f, 0x3000, 0xfeff]

/-- Replace every whitespace run with one space: the replace of a plus-quantified
whitespace class with a single space. The flag records whether the previous
character belonged to a run already replaced. -/
def collapseWsAux (prevWs : Bool) : List Char → List Char
  | [] => []
  | ch :: rest =>
    if isJsWs ch then
      if prevWs then collapseWsAux true rest
      else ' ' :: collapseWsAux true rest
    else ch :: collapseWsAux false rest

/-- Whitespace-run collapse entry point. -/
def collapseWs (l : List Char) : List Char :=
  collapseWsAux false l

/-- Two adjacent chars are not both whitespace: the shape invariant of the
collapse output used in the idempotence analysis. -/
def noWsPair (a b : Char) : Prop :=
  ¬(isJsWs a = true ∧ isJsWs b = true)

/-- JS String.trim on char lists: strip whitespace from both ends. -/
def trimChars (l : List Char) : List Char :=
  ((l.dropWhile isJsWs).reverse.dropWhile isJsWs).reverse

/-- The pipeline of sanitizeFilename before the truncation and the empty or
all-dots substitution: the two character-removal replaces, the whitespace
collapse and the trim, in source order. -/
def sanitizePipeline (l : List Char) : List Char :=
  trimChars (collapseWs ((l.filter (fun ch => !(isSepChar ch))).filter (fun ch => !(isDangerChar ch))))

/-- Embedding of sanitizeFilename from security.js: remove separators, remove
the dangerous character set, collapse whitespace runs, trim, truncate to 255,
and substitute the literal unnamed for an empty or all-dots result. -/
def sanitizeFilename (filename : String) : String :=
  let s4 := sanitizePipeline filename.data
  let s5 := if s4.length > 255 then s4.take 255 else s4
  if s5.isEmpty || s5.all (fun ch => ch = '.') then "unnamed" else String.mk s5

/-! ## security.js : validateFileContent -/

/-- UTF-8 encoding of one char (scalar value), for byte lengths and for the
Buffer.from conversion of a head string. -/
def utf8EncodeChar (c : Char) : List Nat :=
  let n := c.toNat
  if n < 0x80 then [n]
  else if n < 0x800 then [0xc0 + n / 0x40, 0x80 + n % 0x40]
  else if n < 0x10000 then [0xe0 + n / 0x1000, 0x80 + n / 0x40 % 0x40, 0x80 + n % 0x40]
  else [0xf0 + n / 0x40000, 0x80 + n / 0x1000 % 0x40, 0x80 + n / 0x40 % 0x40, 0x80 + n % 0x40]

/-- UTF-8 encoding of a char list. -/
def utf8Encode (l : List Char) : List Nat :=
  (l.map utf8EncodeChar).flatten

/-- Byte length of a string content, as Buffer.byteLength computes it. -/
def byteLen (s : String) : Nat :=
  (utf8Encode s.data).length

/-- Embedding of validateFileContent from security.js for string content: the
byte size cap and the suspicious pattern tests applied to the content itself. -/
def validateFileContent (content : String) : Bool :=
  if byteLen content > MAX_FILE_SIZE then false
  else !(suspicious content)

/-! ## UTF-8 decoding (the TextDecoder used by checkFileContent on binary input) -/

/-- The unicode replacement character emitted by TextDecoder on invalid bytes. -/
def replChar : Char := Char.ofNat 0xfffd

/-- Continuation byte test for UTF-8 decoding. -/
def isContByte (b : Nat) : Bool := 0x80 ≤ b && b ≤ 0xbf

/-- Decoder state of the WHATWG UTF-8 decoder: how many continuation bytes are
still needed, the partial code point, and the admissible range for the next
byte (tightened after an E0, ED, F0 or F4 lead to exclude overlong and
surrogate encodings). -/
structure Utf8State where
  needed : Nat
  codepoint : Nat
  lower : Nat
  upper : Nat

/-- The initial decoder state. -/
def utf8Zst : Utf8State := ⟨0, 0, 0x80, 0xbf⟩

/-- Byte-at-a-time UTF-8 decoder with replacement on error, following the
WHATWG algorithm the default utf-8 TextDecoder implements: an invalid byte
emits one replacement char and is then reprocessed as an initial byte (the
reprocessing is inlined in the mismatch branch so the recursion stays on the
tail); input ending inside a sequence emits one replacement char. -/
def utf8Step (st : Utf8State) : List Nat → List Char
  | [] => if st.needed = 0 then [] else [replChar]
  | b :: rest =>
    if st.needed = 0 then
      if b < 0x80 then Char.ofNat b :: utf8Step utf8Zst rest
      else if b < 0xc2 then replChar :: utf8Step utf8Zst rest
      else if b < 0xe0 then utf8Step ⟨1, b - 0xc0, 0x80, 0xbf⟩ rest
      else if b < 0xf0 then
        utf8Step ⟨2, b - 0xe0, if b = 0xe0 then 0xa0 else 0x80,
          if b = 0xed then 0x9f else 0xbf⟩ rest
      else if b < 0xf5 then
        utf8Step ⟨3, b - 0xf0, if b = 0xf0 then 0x90 else 0x80,
          if b = 0xf4 then 0x8f else 0xbf⟩ rest
      else replChar :: utf8Step utf8Zst rest
    else
      if st.lower ≤ b ∧ b ≤ st.upper then
        let cp := st.codepoint * 0x40 + (b - 0x80)
        if st.needed = 1 then Char.ofNat cp :: utf8Step utf8Zst rest
        else utf8Step ⟨st.needed - 1, cp, 0x80, 0xbf⟩ rest
      else
        replChar ::
          (if b < 0x80 then Char.ofNat b :: utf8Step utf8Zst rest
          else if b < 0xc2 then replChar :: utf8Step utf8Zst rest
          else if b < 0xe0 then utf8Step ⟨1, b - 0xc0, 0x80, 0xbf⟩ rest
          else if b < 0xf0 then
            utf8Step ⟨2, b - 0xe0, if b = 0xe0 then 0xa0 else 0x80,
              if b = 0xed then 0x9f else 0xbf⟩ rest
          else if b < 0xf5 then
            utf8Step ⟨3, b - 0xf0, if b = 0xf0 then 0x90 else 0x80,
              if b = 0xf4 then 0x8f else 0xbf⟩ rest
          else replChar :: utf8Step utf8Zst rest)

/-- TextDecoder with default options removes a leading UTF-8 byte order mark. -/
def utf8Decode (bs : List Nat) : List Char :=
  match bs with
  | 0xef :: 0xbb :: 0xbf :: rest => utf8Step utf8Zst rest
  | _ => utf8Step utf8Zst bs

/-! ## FileService.js : checkFileContent -/

/-- JS indexing c i compared against a char: out of range compares unequal. -/
def chAt (l : List Char) (i : Nat) (x : Char) : Bool :=
  l[i]? == some x

/-- JS indexing cc i compared against a byte: out of range compares unequal. -/
def byAt (l : List Nat) (i : Nat) (x : Nat) : Bool :=
  l[i]? == some x

/-- The branch chain of checkFileContent over the decoded head chars c and the
head bytes cc. Every branch of the source either returns true or falls through
to the next check, so the chain is a disjunction, the final return giving false.
Branch order follows the source: markup, byte order marks, PDF, PNG, JPEG,
WebP, ZIP, JSON. -/
def checkCore (c : List Char) (cc : List Nat) : Bool :=
  (chAt c 0 '<' && (
    chAt c 1 '!' ||
    (chAt c 1 'h' && chAt c 2 't' && chAt c 3 'm' && chAt c 4 'l') ||
    (chAt c 1 'H' && chAt c 2 'T' && chAt c 3 'M' && chAt c 4 'L') ||
    (chAt c 1 'b' && chAt c 2 'o' && chAt c 3 'd' && chAt c 4 'y') ||
    (chAt c 1 'B' && chAt c 2 'O' && chAt c 3 'D' && chAt c 4 'Y') ||
    (chAt c 1 '?' && chAt c 2 'x' && chAt c 3 'm' && chAt c 4 'l') ||
    (chAt c 1 's' && chAt c 2 'v' && chAt c 3 'g') ||
    (chAt c 1 'm' && chAt c 2 'x') ||
    (chAt c 1 'i' && chAt c 2 'm' && chAt c 3 'g') ||
    (chAt c 1 'i' && chAt c 2 'f' && chAt c 3 'r' && chAt c 4 'a' && chAt c 5 'm' && chAt c 6 'e'))) ||
  (byAt cc 0 0xef && byAt cc 1 0xbb && byAt cc 2 0xbf &&
    (chAt c 3 '<' && chAt c 4 '?' && chAt c 5 'x')) ||
  (byAt cc 0 0xfe && byAt cc 1 0xff &&
    (byAt cc 2 0 && chAt c 3 '<' && byAt cc 4 0 && chAt c 5 '?' && byAt cc 6 0 && chAt c 7 'x')) ||
  (byAt cc 0 0xff && byAt cc 1 0xfe &&
    (chAt c 2 '<' && byAt cc 3 0 && chAt c 4 '?' && byAt cc 5 0)) ||
  (byAt cc 0 0x00 && byAt cc 1 0x00 && byAt cc 2 0xfe && byAt cc 3 0xff) ||
  (byAt cc 0 0xff && byAt cc 1 0xfe && byAt cc 2 0x00 && byAt cc 3 0x00) ||
  (byAt cc 0 0x25 && byAt cc 1 0x50 && byAt cc 2 0x44 && byAt cc 3 0x46) ||
  ((byAt cc 0 0x89 && byAt cc 1 0x50 && byAt cc 2 0x4e && byAt cc 3 0x47) ||
   (byAt cc 0 0xc2 && byAt cc 1 0x89 && byAt cc 2 0x50 && byAt cc 3 0x4e)) ||
  (byAt cc 0 0xff && byAt cc 1 0xd8 && byAt cc 2 0xff &&
    (byAt cc 3 0xe0 || byAt cc 3 0xee || byAt cc 3 0xe1)) ||
  (byAt cc 0 0x52 && byAt cc 1 0x49 && byAt cc 2 0x46 && byAt cc 3 0x46 &&
    (byAt cc 8 0x57 && byAt cc 9 0x45 && byAt cc 10 0x42 && byAt cc 11 0x50)) ||
  (byAt cc 0 0x50 && byAt cc 1 0x4b && byAt cc 2 0x03 &&
    (byAt cc 3 0x04 || byAt cc 3 0x06)) ||
  (chAt c 0 '{' || chAt c 0 '[')

/-- checkFileContent on binary input (Buffer or Uint8Array branch): the head
chars are the utf-8 decoding of the first sixteen bytes, the head bytes are the
first sixteen bytes themselves. -/
def checkFileContentBytes (body : List Nat) : Bool :=
  checkCore (utf8Decode (body.take 16)) (body.take 16)

/-- checkFileContent on string input without base64 encoding: the head is the
first sixteen chars and the head bytes are its utf-8 encoding, as Buffer.from
produces. The base64 branch of the source is not modelled (no claim uses it). -/
def checkFileContentStr (body : String) : Bool :=
  checkCore (body.data.take 16) (utf8Encode (body.data.take 16))

/-- The recognized-head predicate for binary content: the same branch
conditions as checkCore, stated as a proposition over the byte list, to express
the allow-list reading of the claim. -/
def recognizedBytes (body : List Nat) : Prop :=
  let c := utf8Decode (body.take 16)
  let cc := body.take 16
  (chAt c 0 '<' = true ∧ (
    chAt c 1 '!' = true ∨
    (chAt c 1 'h' = true ∧ chAt c 2 't' = true ∧ chAt c 3 'm' = true ∧ chAt c 4 'l' = true) ∨
    (chAt c 1 'H' = true ∧ chAt c 2 'T' = true ∧ chAt c 3 'M' = true ∧ chAt c 4 'L' = true) ∨
    (chAt c 1 'b' = true ∧ chAt c 2 'o' = true ∧ chAt c 3 'd' = true ∧ chAt c 4 'y' = true) ∨
    (chAt c 1 'B' = true ∧ chAt c 2 'O' = true ∧ chAt c 3 'D' = true ∧ chAt c 4 'Y' = true) ∨
    (chAt c 1 '?' = true ∧ chAt c 2 'x' = true ∧ chAt c 3 'm' = true ∧ chAt c 4 'l' = true) ∨
    (chAt c 1 's' = true ∧ chAt c 2 'v' = true ∧ chAt c 3 'g' = true) ∨
    (chAt c 1 'm' = true ∧ chAt c 2 'x' = true) ∨
    (chAt c 1 'i' = true ∧ chAt c 2 'm' = true ∧ chAt c 3 'g' = true) ∨
    (chAt c 1 'i' = true ∧ chAt c 2 'f' = true ∧ chAt c 3 'r' = true ∧ chAt c 4 'a' = true ∧
      chAt c 5 'm' = true ∧ chAt c 6 'e' = true))) ∨
  (byAt cc 0 0xef = true ∧ byAt cc 1 0xbb = true ∧ byAt cc 2 0xbf = true ∧
    chAt c 3 '<' = true ∧ chAt c 4 '?' = true ∧ chAt c 5 'x' = true) ∨
  (byAt cc 0 0xfe = true ∧ byAt cc 1 0xff = true ∧ byAt cc 2 0 = true ∧ chAt c 3 '<' = true ∧
    byAt cc 4 0 = true ∧ chAt c 5 '?' = true ∧ byAt cc 6 0 = true ∧ chAt c 7 'x' = true) ∨
  (byAt cc 0 0xff = true ∧ byAt cc 1 0xfe = true ∧ chAt c 2 '<' = true ∧ byAt cc 3 0 = true ∧
    chAt c 4 '?' = true ∧ byAt cc 5 0 = true) ∨
  (byAt cc 0 0x00 = true ∧ byAt cc 1 0x00 = true ∧ byAt cc 2 0xfe = true ∧ byAt cc 3 0xff = true) ∨
  (byAt cc 0 0xff = true ∧ byAt cc 1 0xfe = true ∧ byAt cc 2 0x00 = true ∧ byAt cc 3 0x00 = true) ∨
  (byAt cc 0 0x25 = true ∧ byAt cc 1 0x50 = true ∧ byAt cc 2 0x44 = true ∧ byAt cc 3 0x46 = true) ∨
  (byAt cc 0 0x89 = true ∧ byAt cc 1 0x50 = true ∧ byAt cc 2 0x4e = true ∧ byAt cc 3 0x47 = true) ∨
  (byAt cc 0 0xc2 = true ∧ byAt cc 1 0x89 = true ∧ byAt cc 2 0x50 = true ∧ byAt cc 3 0x4e = true) ∨
  (byAt cc 0 0xff = true ∧ byAt cc 1 0xd8 = true ∧ byAt cc 2 0xff = true ∧
    (byAt cc 3 0xe0 = true ∨ byAt cc 3 0xee = true ∨ byAt cc 3 0xe1 = true)) ∨
  (byAt cc 0 0x52 = true ∧ byAt cc 1 0x49 = true ∧ byAt cc 2 0x46 = true ∧ byAt cc 3 0x46 = true ∧
    byAt cc 8 0x57 = true ∧ byAt cc 9 0x45 = true ∧ byAt cc 10 0x42 = true ∧ byAt cc 11 0x50 = true) ∨
  (byAt cc 0 0x50 = true ∧ byAt cc 1 0x4b = true ∧ byAt cc 2 0x03 = true ∧
    (byAt cc 3 0x04 = true ∨ byAt cc 3 0x06 = true)) ∨
  (chAt c 0 '{' = true ∨ chAt c 0 '[' = true)

/-! ## Filesystem model -/

/-- The error codes of error-handler.js that FileService raises. -/
inductive ErrCode where
  | FILE_NOT_FOUND
  | FILE_ACCESS_DENIED
  | FILE_TOO_LARGE
  | FILE_INVALID
  | FILE_CONFLICT
  | PATH_TRAVERSAL
  | SECURITY_VIOLATION
  | UNKNOWN_ERROR
  deriving DecidableEq, Repr

/-- FileError of error-handler.js: message, code and the offending path. -/
structure FileError where
  message : String
  code : ErrCode
  filePath : String
  deriving DecidableEq, Repr

deriving instance DecidableEq for Except

/-- The fields of fs.Stats the code consults. -/
structure Stats where
  size : Nat
  mtimeMs : Nat
  deriving DecidableEq, Repr

/-- One file on disk: content plus creation and modification times. -/
structure FsEntry where
  content : String
  ctimeMs : Nat
  mtimeMs : Nat
  deriving DecidableEq, Repr

/-- The filesystem as an association list from absolute path to entry. -/
abbrev FS := List (String × FsEntry)

/-- Lookup of a path. -/
def fsFind (fs : FS) (p : String) : Option FsEntry :=
  (fs.find? (fun kv => kv.1 == p)).map (fun kv => kv.2)

/-- fs.existsSync. -/
def existsSync (fs : FS) (p : String) : Bool :=
  (fsFind fs p).isSome

/-- A write to a path: content replaced and mtime set; creation time is kept
for an existing file and set to the write time for a new one. -/
def fsWrite (fs : FS) (p : String) (content : String) (mt : Nat) : FS :=
  match fsFind fs p with
  | some e => fs.map (fun kv => if kv.1 = p then (p, ⟨content, e.ctimeMs, mt⟩) else kv)
  | none => fs ++ [(p, ⟨content, mt, mt⟩)]

/-- fs.unlink. -/
def fsRemove (fs : FS) (p : String) : FS :=
  fs.filter (fun kv => kv.1 ≠ p)

/-- fsProm.rename: moves the entry, replacing a destination if present;
no-op when the source is absent. -/
def fsRename (fs : FS) (src dst : String) : FS :=
  match fsFind fs src with
  | some e => ((fsRemove fs src).filter (fun kv => kv.1 ≠ dst)) ++ [(dst, e)]
  | none => fs

/-- fsProm.stat on an existing path (zero stat for a missing one; the code
only consults it after an existence check or a write). -/
def statOf (fs : FS) (p : String) : Stats :=
  match fsFind fs p with
  | some e => ⟨byteLen e.content, e.mtimeMs⟩
  | none => ⟨0, 0⟩

/-- validateFileSize of security.js over the filesystem model: a missing file
passes, an existing one passes when its size is within the cap. -/
def validateFileSizeFs (fs : FS) (p : String) : Bool :=
  match fsFind fs p with
  | none => true
  | some e => !(byteLen e.content > MAX_FILE_SIZE)

/-! ## FileService.js : isConflict and saveFile -/

/-- Embedding of isConflict: both stats present and modification times differ. -/
def isConflict (origStat stat : Option Stats) : Bool :=
  match stat, origStat with
  | some s, some o => s.mtimeMs != o.mtimeMs
  | _, _ => false

/-- The file handle the save operations receive. -/
structure FileObject where
  path : String
  deriving DecidableEq, Repr

/-- Environment driving the physical writes of one saveFile call: per target
write attempt, the content that actually lands on disk (the read-back sees
exactly this) and the modification time the filesystem assigns, plus the
modification time of the backup write. -/
structure WriteEnv where
  written : Nat → String
  writeMtime : Nat → Nat
  bkpMtime : Nat

/-- Result of a save: the returned stat or the raised error, the final
filesystem, and the backoff delays slept in milliseconds, in order. -/
structure SaveOut where
  res : Except FileError Stats
  fs : FS
  delays : List Nat

/-- The inner writeFile closure of saveFile. The source counts retries in a
mutable retryCount starting at zero with bound three; the attempts list [0,1,2]
materializes the same three possible attempts, the list index being the value
retryCount has when that attempt runs. Each attempt opens with sync flags,
writes, reads the content back and compares; on mismatch with retries left the
source sleeps 100 times the incremented retryCount and recurses, otherwise it
raises FILE_INVALID. On a verified write, a stale legacy backup sibling is
unlinked when a backup was created in this call. -/
def writeFileFrom (env : WriteEnv) (p data oldBkpPath : String) (backupCreated : Bool) :
    List Nat → FS → List Nat → SaveOut
  | [], fs, delays =>
    ⟨.error ⟨"Write verification failed after retries", .FILE_INVALID, p⟩, fs, delays⟩
  | i :: rest, fs, delays =>
    let fs1 := fsWrite fs p (env.written i) (env.writeMtime i)
    let stat2 := statOf fs1 p
    let writtenData := ((fsFind fs1 p).map FsEntry.content).getD ""
    if data = writtenData then
      let fs2 := if backupCreated && existsSync fs1 oldBkpPath then fsRemove fs1 oldBkpPath else fs1
      ⟨.ok stat2, fs2, delays⟩
    else
      match rest with
      | [] => ⟨.error ⟨"Write verification failed after retries", .FILE_INVALID, p⟩, fs1, delays⟩
      | j :: rest2 => writeFileFrom env p data oldBkpPath backupCreated (j :: rest2) fs1
          (delays ++ [100 * (i + 1)])

/-- The doSaveFile closure of saveFile: when backups are enabled and the target
is not treated as new, the current target content is read and written durably
to the backup sibling before the target write loop runs. A failing read of the
current content (missing file) is caught in the source, leaving backupCreated
false. The Windows hidden-attribute helper process is omitted. -/
def doSaveFile (env : WriteEnv) (p data bkpPath oldBkpPath : String)
    (enableStoreBkp isNew : Bool) (fs : FS) : SaveOut :=
  if enableStoreBkp && !isNew then
    match fsFind fs p with
    | some e =>
      writeFileFrom env p data oldBkpPath true [0, 1, 2]
        (fsWrite fs bkpPath e.content env.bkpMtime) []
    | none => writeFileFrom env p data oldBkpPath false [0, 1, 2] fs []
  else writeFileFrom env p data oldBkpPath false [0, 1, 2] fs []

/-- Embedding of saveFile: the validation gates in source order (path outside
the application directory, content allow-list and suspicious-pattern checks,
size cap), the backup sibling names, then either the overwrite path, which
calls doSaveFile with isNew true unconditionally, or the conflict check against
the current stat followed by doSaveFile. Encodings are not modelled (the model
works on the decoded string content throughout). -/
def saveFile (cwd appBase : String) (env : WriteEnv) (fs : FS) (fileObject : FileObject)
    (data : String) (origStat : Option Stats) (overwrite : Bool) (enableStoreBkp : Bool) : SaveOut :=
  if !(isOutsideAppDir cwd appBase fileObject.path) then
    ⟨.error ⟨"Cannot save to application directory", .SECURITY_VIOLATION, fileObject.path⟩, fs, []⟩
  else if !(checkFileContentStr data) || !(validateFileContent data) then
    ⟨.error ⟨"Invalid file data", .FILE_INVALID, fileObject.path⟩, fs, []⟩
  else if !(validateFileSizeFs fs fileObject.path) then
    ⟨.error ⟨"File too large", .FILE_TOO_LARGE, fileObject.path⟩, fs, []⟩
  else
    let bkpPath := pathJoin (dirName fileObject.path) (".$" ++ baseName fileObject.path ++ ".bkp")
    let oldBkpPath := pathJoin (dirName fileObject.path) ("~$" ++ baseName fileObject.path ++ ".bkp")
    if overwrite then
      doSaveFile env fileObject.path data bkpPath oldBkpPath enableStoreBkp true fs
    else
      let stat := if existsSync fs fileObject.path then some (statOf fs fileObject.path) else none
      if stat.isSome && isConflict origStat stat then
        ⟨.error ⟨"File conflict detected", .FILE_CONFLICT, fileObject.path⟩, fs, []⟩
      else
        doSaveFile env fileObject.path data bkpPath oldBkpPath enableStoreBkp stat.isNone fs

/-! ## FileService.js : getFileDrafts -/

/-- One draft record returned to the caller. -/
structure DraftRec where
  data : String
  created : Nat
  modified : Nat
  path : String
  deriving DecidableEq, Repr

/-- The first do-while loop of getFileDrafts: pushes the previously probed name
(none on the first pass), computes the next draft sibling name from the current
unique suffix, advances the counter, and continues while the computed name
exists. The fuel bounds the unbounded source loop; any fuel larger than the
number of existing drafts gives the loop meaning. -/
def newDraftLoop (fs : FS) (dir base : String) :
    Nat → List String → Option String → Nat → String → List String
  | 0, acc, _, _, _ => acc
  | fuel + 1, acc, prev, counter, uniquePart =>
    let acc2 := match prev with
      | some d => acc ++ [d]
      | none => acc
    let draftFileName := pathJoin dir (".$" ++ base ++ uniquePart ++ ".dtmp")
    if existsSync fs draftFileName then
      newDraftLoop fs dir base fuel acc2 (some draftFileName) (counter + 1)
        ("_" ++ toString counter)
    else acc2

/-- The migration do-while loop of getFileDrafts: while a legacy-prefixed draft
sibling exists, rename it to the current naming scheme and push the new name.
The rename is modelled as succeeding; the source catches a failing rename and
only logs it. -/
def migrateLoop (dir base : String) :
    Nat → FS → List String → Nat → String → FS × List String
  | 0, fs, acc, _, _ => (fs, acc)
  | fuel + 1, fs, acc, counter, uniquePart =>
    let oldDraftFileName := pathJoin dir ("~$" ++ base ++ uniquePart ++ ".dtmp")
    if existsSync fs oldDraftFileName then
      let newDraftFileName := pathJoin dir (".$" ++ base ++ uniquePart ++ ".dtmp")
      migrateLoop dir base fuel (fsRename fs oldDraftFileName newDraftFileName)
        (acc ++ [newDraftFileName]) (counter + 1) ("_" ++ toString counter)
    else (fs, acc)

/-- Embedding of getFileDrafts: collect the current-format draft sibling names,
migrate legacy-prefixed siblings into the same collected list, then read the
collected paths into records. The read loop of the source iterates from index
ONE (for let i = 1), so the first collected path is never read; the drop 1
reproduces that. A path whose read fails (absent entry) is skipped, as the
source catches and logs per-draft read errors. -/
def getFileDrafts (fuel : Nat) (fs : FS) (filePath : String) : FS × List DraftRec :=
  let dir := dirName filePath
  let base := baseName filePath
  let paths1 := newDraftLoop fs dir base fuel [] none 1 ""
  let out2 := migrateLoop dir base fuel fs paths1 1 ""
  let drafts := (out2.2.drop 1).filterMap (fun dp =>
    (fsFind out2.1 dp).map (fun e => ⟨e.content, e.ctimeMs, e.mtimeMs, dp⟩))
  (out2.1, drafts)

/-! ## ipc/handlers.js : the boundary dispatcher for the rendererReq channel -/

/-- The request envelope fields the dispatcher itself consults. -/
structure ReqArgs where
  action : String
  reqId : Nat
  deriving DecidableEq, Repr

/-- The response envelope sent on the mainResp channel. -/
inductive MainResp where
  | success (data : Option String) (reqId : Nat)
  | err (msg : String) (reqId : Nat)
  deriving DecidableEq, Repr

/-- The correlation id carried by a response. -/
def MainResp.rid : MainResp → Nat
  | .success _ r => r
  | .err _ r => r

/-- The closed action set of the handleAction switch, in source order. -/
def knownActions : List String :=
  ["saveFile", "writeFile", "saveDraft", "getFileDrafts", "getDocumentsFolder",
   "checkFileExists", "showOpenDialog", "showSaveDialog", "installPlugin",
   "uninstallPlugin", "getPluginFile", "isPluginsEnabled", "dirname", "readFile",
   "clipboardAction", "deleteFile", "fileStat", "isFileWritable", "windowAction",
   "openExternal", "watchFile", "unwatchFile", "exit", "isFullscreen"]

/-- Embedding of handleAction: a switch on the action name. Each case routes to
one service operation, modelled by the eff oracle giving that operation's
outcome (a payload, possibly null, or a thrown error message); the payload
type is opaque to the dispatcher. The default case throws the unknown-action
error with the attempted name, as the source does. -/
def handleAction (eff : String → Except String (Option String)) (args : ReqArgs) :
    Except String (Option String) :=
  if args.action = "saveFile" then eff "saveFile"
  else if args.action = "writeFile" then eff "writeFile"
  else if args.action = "saveDraft" then eff "saveDraft"
  else if args.action = "getFileDrafts" then eff "getFileDrafts"
  else if args.action = "getDocumentsFolder" then eff "getDocumentsFolder"
  else if args.action = "checkFileExists" then eff "checkFileExists"
  else if args.action = "showOpenDialog" then eff "showOpenDialog"
  else if args.action = "showSaveDialog" then eff "showSaveDialog"
  else if args.action = "installPlugin" then eff "installPlugin"
  else if args.action = "uninstallPlugin" then eff "uninstallPlugin"
  else if args.action = "getPluginFile" then eff "getPluginFile"
  else if args.action = "isPluginsEnabled" then eff "isPluginsEnabled"
  else if args.action = "dirname" then eff "dirname"
  else if args.action = "readFile" then eff "readFile"
  else if args.action = "clipboardAction" then eff "clipboardAction"
  else if args.action = "deleteFile" then eff "deleteFile"
  else if args.action = "fileStat" then eff "fileStat"
  else if args.action = "isFileWritable" then eff "isFileWritable"
  else if args.action = "windowAction" then eff "windowAction"
  else if args.action = "openExternal" then eff "openExternal"
  else if args.action = "watchFile" then eff "watchFile"
  else if args.action = "unwatchFile" then eff "unwatchFile"
  else if args.action = "exit" then eff "exit"
  else if args.action = "isFullscreen" then eff "isFullscreen"
  else .error ("Unknown action: " ++ args.action)

/-- Embedding of the rendererReq listener of setupRendererRequestHandler: the
sender check (an early error reply and return), the rate check (an early error
reply and return), then the routed action inside try-catch, replying success
with the result or error with the thrown message. The returned list collects
every event.reply performed for the one inbound request. -/
def rendererReq (validSender ratePass : Bool)
    (eff : String → Except String (Option String)) (args : ReqArgs) : List MainResp :=
  if !validSender then [.err "Invalid sender" args.reqId]
  else if !ratePass then [.err "Rate limit exceeded" args.reqId]
  else
    match handleAction eff args with
    | .ok d => [.success d args.reqId]
    | .error m => [.err m args.reqId]

/-! ## Helper lemmas -/

/-- A string starts with itself. -/
theorem strStartsWith_self (s : String) : strStartsWith s s = true := by
  simp [strStartsWith, List.isPrefixOf_iff_prefix]

/-- Starting with a slash-extended string implies starting with the string. -/
theorem strStartsWith_of_slash (s t : String)
    (h : strStartsWith s (t ++ "/") = true) : strStartsWith s t = true := by
  simp only [strStartsWith, List.isPrefixOf_iff_prefix, String.data_append] at h ⊢
  exact List.IsPrefix.trans (List.prefix_append _ _) h

/-- The default case of the handleAction switch: an action name outside the
closed action set reaches the throw of the unknown-action error. -/
theorem handleAction_unknown (eff : String → Except String (Option String)) (args : ReqArgs)
    (h : args.action ∉ knownActions) :
    handleAction eff args = .error ("Unknown action: " ++ args.action) := by
  have h1 : args.action ≠ "saveFile" := fun he => h (by rw [he]; decide)
  have h2 : args.action ≠ "writeFile" := fun he => h (by rw [he]; decide)
  have h3 : args.action ≠ "saveDraft" := fun he => h (by rw [he]; decide)
  have h4 : args.action ≠ "getFileDrafts" := fun he => h (by rw [he]; decide)
  have h5 : args.action ≠ "getDocumentsFolder" := fun he => h (by rw [he]; decide)
  have h6 : args.action ≠ "checkFileExists" := fun he => h (by rw [he]; decide)
  have h7 : args.action ≠ "showOpenDialog" := fun he => h (by rw [he]; decide)
  have h8 : args.action ≠ "showSaveDialog" := fun he => h (by rw [he]; decide)
  have h9 : args.action ≠ "installPlugin" := fun he => h (by rw [he]; decide)
  have h10 : args.action ≠ "uninstallPlugin" := fun he => h (by rw [he]; decide)
  have h11 : args.action ≠ "getPluginFile" := fun he => h (by rw [he]; decide)
  have h12 : args.action ≠ "isPluginsEnabled" := fun he => h (by rw [he]; decide)
  have h13 : args.action ≠ "dirname" := fun he => h (by rw [he]; decide)
  have h14 : args.action ≠ "readFile" := fun he => h (by rw [he]; decide)
  have h15 : args.action ≠ "clipboardAction" := fun he => h (by rw [he]; decide)
  have h16 : args.action ≠ "deleteFile" := fun he => h (by rw [he]; decide)
  have h17 : args.action ≠ "fileStat" := fun he => h (by rw [he]; decide)
  have h18 : args.action ≠ "isFileWritable" := fun he => h (by rw [he]; decide)
  have h19 : args.action ≠ "windowAction" := fun he => h (by rw [he]; decide)
  have h20 : args.action ≠ "openExternal" := fun he => h (by rw [he]; decide)
  have h21 : args.action ≠ "watchFile" := fun he => h (by rw [he]; decide)
  have h22 : args.action ≠ "unwatchFile" := fun he => h (by rw [he]; decide)
  have h23 : args.action ≠ "exit" := fun he => h (by rw [he]; decide)
  have h24 : args.action ≠ "isFullscreen" := fun he => h (by rw [he]; decide)
  unfold handleAction
  rw [if_neg h1, if_neg h2, if_neg h3, if_neg h4, if_neg h5, if_neg h6, if_neg h7, if_neg h8, if_neg h9, if_neg h10, if_neg h11, if_neg h12, if_neg h13, if_neg h14, if_neg h15, if_neg h16, if_neg h17, if_neg h18, if_neg h19, if_neg h20, if_neg h21, if_neg h22, if_neg h23, if_neg h24]

/-! ## C1 : the boundary dispatcher sends exactly one correlated reply -/

/-- C1: every inbound rendererReq request produces exactly one reply, always
correlated by the request id: an error reply when the sender check or the rate
check fails or the routed action throws, a success reply when it completes; an
action name outside the closed set produces the explicit unknown-action error
reply rather than silence. -/
theorem c1_request_single_correlated_reply (validSender ratePass : Bool)
    (eff : String → Except String (Option String)) (args : ReqArgs) :
    ((rendererReq validSender ratePass eff args).length = 1 ∧
      ∀ resp ∈ rendererReq validSender ratePass eff args, resp.rid = args.reqId) ∧
    (args.action ∉ knownActions → validSender = true → ratePass = true →
      rendererReq validSender ratePass eff args =
        [.err ("Unknown action: " ++ args.action) args.reqId]) := by
  constructor
  · have hshape : ∃ m, rendererReq validSender ratePass eff args = [m] ∧
        MainResp.rid m = args.reqId := by
      cases validSender with
      | false => exact ⟨_, rfl, rfl⟩
      | true =>
        cases ratePass with
        | false => exact ⟨_, rfl, rfl⟩
        | true =>
          cases h : handleAction eff args with
          | ok d => exact ⟨.success d args.reqId, by simp [rendererReq, h], rfl⟩
          | error m => exact ⟨.err m args.reqId, by simp [rendererReq, h], rfl⟩
    obtain ⟨m, hm, hrid⟩ := hshape
    rw [hm]
    refine ⟨rfl, ?_⟩
    intro resp hresp
    rw [List.mem_singleton] at hresp
    rw [hresp]
    exact hrid
  · intro hmem hv hr
    subst hv
    subst hr
    simp [rendererReq, handleAction_unknown eff args hmem]

/-- C1 witness: a concrete unknown action with passing checks gets exactly the
unknown-action error reply, and a concrete known action gets one success reply
carrying its request id. -/
theorem c1_request_single_correlated_reply_witness :
    rendererReq true true (fun _ => .ok none) ⟨"frobnicate", 7⟩ =
      [.err ("Unknown action: " ++ "frobnicate") 7] ∧
    (rendererReq true true (fun _ => .ok none) ⟨"readFile", 9⟩).length = 1 := by
  constructor
  · exact (c1_request_single_correlated_reply true true (fun _ => .ok none)
      ⟨"frobnicate", 7⟩).2 (by decide) rfl rfl
  · exact ((c1_request_single_correlated_reply true true (fun _ => .ok none)
      ⟨"readFile", 9⟩).1).1

/-! ## C2 : isOutsideAppDir and directory containment -/

/-- C2 counterexample: a sibling directory whose name merely extends the
installation directory name as a string is NOT under the installation
directory, yet isOutsideAppDir returns false for it, where the claim demands
true for every path lying elsewhere. -/
theorem c2_counterexample_sibling_dir_inside :
    isOutsideAppDir "/" "/opt/drawio" "/opt/drawio-sibling/file.txt" = false ∧
    specUnderAppDir "/" "/opt/drawio" "/opt/drawio-sibling/file.txt" = false := by
  decide

/-- C2 amended: isOutsideAppDir returns false for every path whose resolved
form lies under the installation directory, and returns true exactly for paths
whose resolved form does not extend the resolved installation directory as a
string prefix; sibling names extending that string are therefore treated as
inside. -/
theorem c2_outside_app_dir_amended (cwd appBase p : String) :
    (specUnderAppDir cwd appBase p = true → isOutsideAppDir cwd appBase p = false) ∧
    (strStartsWith (pathResolve cwd (stripControl p)) (pathResolve cwd appBase) = false →
      isOutsideAppDir cwd appBase p = true) := by
  constructor
  · intro h
    simp only [specUnderAppDir, Bool.or_eq_true, decide_eq_true_eq] at h
    have hpre : strStartsWith (pathResolve cwd (stripControl p)) (pathResolve cwd appBase) = true := by
      rcases h with h | h
      · rw [h]
        exact strStartsWith_self _
      · exact strStartsWith_of_slash _ _ h
    simp [isOutsideAppDir, hpre]
  · intro h
    simp [isOutsideAppDir, h]

/-- C2 witness: a path below the install dir is reported inside, and a path
whose resolved form does not extend the install dir string is reported outside. -/
theorem c2_outside_app_dir_amended_witness :
    isOutsideAppDir "/" "/opt/drawio" "/opt/drawio/sub/f.txt" = false ∧
    isOutsideAppDir "/" "/opt/drawio" "/home/u/f.txt" = true := by
  constructor
  · exact (c2_outside_app_dir_amended "/" "/opt/drawio" "/opt/drawio/sub/f.txt").1 (by decide)
  · exact (c2_outside_app_dir_amended "/" "/opt/drawio" "/home/u/f.txt").2 (by decide)

/-! ## C8 : isValidPath -/

/-- C8 counterexample: a path containing the dot-dot traversal sequence that
still resolves under an allowed prefix is ACCEPTED, because the suspicious
pattern tests run on the resolved path, where dot-dot has already been
collapsed; the claim demands false for every input containing dot-dot. -/
theorem c8_counterexample_traversal_accepted :
    isValidPath "/" "/tmp/x/../y" ["/tmp"] = true ∧
    containsSub "..".data "/tmp/x/../y".data = true := by
  decide

/-- C8 amended: isValidPath is true iff the path length is within the cap, the
RESOLVED path contains none of the suspicious substrings (so traversal
sequences in the input are collapsed before the test and do not cause
rejection by themselves), and the resolved path starts with some resolved
allowed prefix. -/
theorem c8_valid_path_amended (cwd p : String) (allowedPrefixes : List String) :
    isValidPath cwd p allowedPrefixes = true ↔
      (p.length ≤ MAX_PATH_LENGTH ∧
        suspicious (pathResolve cwd (stripControl p)) = false ∧
        ∃ pre ∈ allowedPrefixes,
          strStartsWith (pathResolve cwd (stripControl p)) (pathResolve cwd pre) = true) := by
  unfold isValidPath
  by_cases hlen : p.length > MAX_PATH_LENGTH
  · simp only [hlen, if_true]
    constructor
    · intro h
      exact absurd h (by simp)
    · intro h
      omega
  · simp only [hlen, if_false]
    have hle : p.length ≤ MAX_PATH_LENGTH := Nat.le_of_not_lt hlen
    by_cases hsus : suspicious (pathResolve cwd (stripControl p)) = true
    · simp [hsus]
    · simp only [hsus, if_false, List.any_eq_true, Bool.not_eq_true] at *
      simp [hle, hsus, List.any_eq_true]

/-! ## C10 : brace- or bracket-initial text passes the content gate -/

/-- C10: for string content (default encoding path) whose first character is a
brace or a bracket, checkFileContent returns true through the JSON branch,
regardless of the remaining content. -/
theorem c10_json_gate (s : String)
    (h : s.data.head? = some '{' ∨ s.data.head? = some '[') :
    checkFileContentStr s = true := by
  match hs : s.data with
  | [] => rw [hs] at h; rcases h with h | h <;> simp at h
  | c :: t =>
    rw [hs] at h
    have hc : c = '{' ∨ c = '[' := by
      rcases h with h | h <;> simp at h <;> [left; right] <;> exact h
    unfold checkFileContentStr checkCore chAt
    rw [hs]
    rcases hc with hc | hc <;> simp [hc, List.take_succ_cons]

/-- C10 witness: a concrete brace-initial string passes the gate. -/
theorem c10_json_gate_witness : checkFileContentStr "\x7b\"a\": [1, 2]\x7d" = true :=
  c10_json_gate "\x7b\"a\": [1, 2]\x7d" (Or.inl (by decide))

/-! ## C6 : checkFileContent is a fail-closed allow-list -/

/-- C6: checkFileContent on binary content is true exactly when the head
matches one of the recognized branch conditions (so content matching none of
them is rejected), and the canonical PDF and PNG magic-byte samples are
accepted while an unrecognized plain sample is rejected. -/
theorem c6_content_allowlist :
    (∀ body : List Nat, checkFileContentBytes body = true ↔ recognizedBytes body) ∧
    checkFileContentBytes [0x25, 0x50, 0x44, 0x46, 0x2d, 0x31, 0x2e, 0x34] = true ∧
    checkFileContentBytes [0x89, 0x50, 0x4e, 0x47, 0x0d, 0x0a, 0x1a, 0x0a] = true ∧
    checkFileContentBytes [0x48, 0x65, 0x6c, 0x6c, 0x6f] = false := by
  refine ⟨fun body => ?_, by decide, by decide, by decide⟩
  unfold checkFileContentBytes recognizedBytes checkCore
  simp only [Bool.or_eq_true, Bool.and_eq_true, and_assoc, or_assoc]

/-! ## Filesystem lemmas -/

/-- Lookup in a cons cell. -/
theorem fsFind_cons (k : String) (v : FsEntry) (fs : FS) (p : String) :
    fsFind ((k, v) :: fs) p = if k = p then some v else fsFind fs p := by
  unfold fsFind
  rw [List.find?_cons]
  by_cases h : k = p
  · have hb : (k == p) = true := beq_iff_eq.mpr h
    simp [hb, h]
  · have hb : (k == p) = false := beq_eq_false_iff_ne.mpr h
    simp [hb, h]

/-- Appending a fresh entry is found when the path was absent. -/
theorem fsFind_append_single_self (fs : FS) (p : String) (x : FsEntry)
    (h : fsFind fs p = none) : fsFind (fs ++ [(p, x)]) p = some x := by
  induction fs with
  | nil => simp [fsFind_cons]
  | cons kv fs ih =>
    obtain ⟨k, v⟩ := kv
    rw [fsFind_cons] at h
    rw [List.cons_append, fsFind_cons]
    by_cases hk : k = p
    · rw [if_pos hk] at h
      exact absurd h (by simp)
    · rw [if_neg hk] at h ⊢
      exact ih h

/-- Appending an entry for a different path does not change a lookup. -/
theorem fsFind_append_single_other (fs : FS) (p q : String) (x : FsEntry)
    (hq : q ≠ p) : fsFind (fs ++ [(p, x)]) q = fsFind fs q := by
  induction fs with
  | nil => simp [fsFind_cons, Ne.symm hq, fsFind]
  | cons kv fs ih =>
    obtain ⟨k, v⟩ := kv
    rw [List.cons_append, fsFind_cons, fsFind_cons, ih]

/-- The in-place update map of fsWrite hits the written path. -/
theorem fsFind_update_self (fs : FS) (p : String) (c : String) (t : Nat) (e : FsEntry)
    (h : fsFind fs p = some e) :
    fsFind (fs.map (fun kv => if kv.1 = p then (p, ⟨c, e.ctimeMs, t⟩) else kv)) p =
      some ⟨c, e.ctimeMs, t⟩ := by
  induction fs with
  | nil => simp [fsFind] at h
  | cons kv fs ih =>
    obtain ⟨k, v⟩ := kv
    rw [fsFind_cons] at h
    by_cases hk : k = p
    · subst hk
      simp [fsFind_cons]
    · rw [if_neg hk] at h
      simp [fsFind_cons, hk, ih h]

/-- The in-place update map of fsWrite leaves other paths alone. -/
theorem fsFind_update_other (fs : FS) (p q : String) (c : String) (t : Nat) (e : FsEntry)
    (hq : q ≠ p) :
    fsFind (fs.map (fun kv => if kv.1 = p then (p, ⟨c, e.ctimeMs, t⟩) else kv)) q =
      fsFind fs q := by
  induction fs with
  | nil => rfl
  | cons kv fs ih =>
    obtain ⟨k, v⟩ := kv
    by_cases hk : k = p
    · subst hk
      simp [fsFind_cons, Ne.symm hq, ih]
    · simp [fsFind_cons, hk, ih]

/-- A write is seen by a lookup of the written path, with the written content
and modification time. -/
theorem fsFind_fsWrite_self (fs : FS) (p : String) (c : String) (t : Nat) :
    ∃ ct, fsFind (fsWrite fs p c t) p = some ⟨c, ct, t⟩ := by
  unfold fsWrite
  cases h : fsFind fs p with
  | none => exact ⟨t, fsFind_append_single_self fs p _ h⟩
  | some e => exact ⟨e.ctimeMs, fsFind_update_self fs p c t e h⟩

/-- A write to one path does not change the lookup of another. -/
theorem fsFind_fsWrite_other (fs : FS) (p q : String) (c : String) (t : Nat)
    (hq : q ≠ p) : fsFind (fsWrite fs p c t) q = fsFind fs q := by
  unfold fsWrite
  cases h : fsFind fs p with
  | none => exact fsFind_append_single_other fs p q _ hq
  | some e => exact fsFind_update_other fs p q c t e hq

/-- Removing one path does not change the lookup of another. -/
theorem fsFind_fsRemove_other (fs : FS) (p q : String) (hq : q ≠ p) :
    fsFind (fsRemove fs p) q = fsFind fs q := by
  unfold fsRemove
  induction fs with
  | nil => rfl
  | cons kv fs ih =>
    obtain ⟨k, v⟩ := kv
    by_cases hk : k = p
    · subst hk
      simp only [List.filter_cons, decide_not] at ih ⊢
      simp [fsFind_cons, Ne.symm hq, ih]
    · simp only [List.filter_cons, decide_not] at ih ⊢
      simp [fsFind_cons, hk, ih]

/-- The stat of a path with a known entry. -/
theorem statOf_eq_of_find (fs : FS) (p : String) (e : FsEntry)
    (h : fsFind fs p = some e) : statOf fs p = ⟨byteLen e.content, e.mtimeMs⟩ := by
  unfold statOf
  rw [h]

/-! ## Write-loop lemmas -/

/-- The write loop touches only the target path and the legacy backup sibling. -/
theorem writeFileFrom_fs_other (env : WriteEnv) (p data ob : String) (bc : Bool)
    (attempts : List Nat) (q : String) (hqp : q ≠ p) (hqo : q ≠ ob) :
    ∀ (fs : FS) (delays : List Nat),
      fsFind (writeFileFrom env p data ob bc attempts fs delays).fs q = fsFind fs q := by
  induction attempts with
  | nil =>
    intro fs delays
    rfl
  | cons i rest ih =>
    intro fs delays
    cases rest with
    | nil =>
      simp only [writeFileFrom]
      split
      · dsimp only
        split
        · rw [fsFind_fsRemove_other _ _ _ hqo, fsFind_fsWrite_other _ _ _ _ _ hqp]
        · rw [fsFind_fsWrite_other _ _ _ _ _ hqp]
      · dsimp only
        rw [fsFind_fsWrite_other _ _ _ _ _ hqp]
    | cons j rest2 =>
      simp only [writeFileFrom]
      split
      · dsimp only
        split
        · rw [fsFind_fsRemove_other _ _ _ hqo, fsFind_fsWrite_other _ _ _ _ _ hqp]
        · rw [fsFind_fsWrite_other _ _ _ _ _ hqp]
      · rw [ih, fsFind_fsWrite_other _ _ _ _ _ hqp]

/-- A successful write loop leaves the intended data at the target path and
returns the stat read after that write. -/
theorem writeFileFrom_ok (env : WriteEnv) (p data ob : String) (bc : Bool)
    (attempts : List Nat) (hop : ob ≠ p) :
    ∀ (fs : FS) (delays : List Nat) (st : Stats),
      (writeFileFrom env p data ob bc attempts fs delays).res = .ok st →
      ∃ ct mt, fsFind (writeFileFrom env p data ob bc attempts fs delays).fs p =
          some ⟨data, ct, mt⟩ ∧ st = ⟨byteLen data, mt⟩ := by
  induction attempts with
  | nil =>
    intro fs delays st h
    exact absurd h (by simp [writeFileFrom])
  | cons i rest ih =>
    intro fs delays st h
    obtain ⟨ct, hself⟩ := fsFind_fsWrite_self fs p (env.written i) (env.writeMtime i)
    cases rest with
    | nil =>
      simp only [writeFileFrom] at h ⊢
      rw [hself] at h ⊢
      simp only [Option.map_some', Option.getD_some] at h ⊢
      by_cases hcond : data = env.written i
      · rw [if_pos hcond] at h ⊢
        dsimp only at h ⊢
        refine ⟨ct, env.writeMtime i, ?_, ?_⟩
        · split
          · rw [fsFind_fsRemove_other _ _ _ (Ne.symm hop), hself, hcond]
          · rw [hself, hcond]
        · rw [statOf_eq_of_find _ _ _ hself] at h
          simp only [Except.ok.injEq] at h
          rw [← h, hcond]
      · rw [if_neg hcond] at h
        simp at h
    | cons j rest2 =>
      simp only [writeFileFrom] at h ⊢
      rw [hself] at h ⊢
      simp only [Option.map_some', Option.getD_some] at h ⊢
      by_cases hcond : data = env.written i
      · rw [if_pos hcond] at h ⊢
        dsimp only at h ⊢
        refine ⟨ct, env.writeMtime i, ?_, ?_⟩
        · split
          · rw [fsFind_fsRemove_other _ _ _ (Ne.symm hop), hself, hcond]
          · rw [hself, hcond]
        · rw [statOf_eq_of_find _ _ _ hself] at h
          simp only [Except.ok.injEq] at h
          rw [← h, hcond]
      · rw [if_neg hcond] at h ⊢
        exact ih _ _ _ h

/-- Three mismatching attempts exhaust the retry budget: the loop raises the
verification error and has slept the two linear backoff delays. -/
theorem writeFileFrom_three_fail (env : WriteEnv) (p data ob : String) (bc : Bool)
    (fs : FS) (delays : List Nat)
    (h0 : data ≠ env.written 0) (h1 : data ≠ env.written 1) (h2 : data ≠ env.written 2) :
    (writeFileFrom env p data ob bc [0, 1, 2] fs delays).res =
      .error ⟨"Write verification failed after retries", .FILE_INVALID, p⟩ ∧
    (writeFileFrom env p data ob bc [0, 1, 2] fs delays).delays = delays ++ [100, 200] := by
  obtain ⟨ct0, e0⟩ := fsFind_fsWrite_self fs p (env.written 0) (env.writeMtime 0)
  obtain ⟨ct1, e1⟩ := fsFind_fsWrite_self
    (fsWrite fs p (env.written 0) (env.writeMtime 0)) p (env.written 1) (env.writeMtime 1)
  obtain ⟨ct2, e2⟩ := fsFind_fsWrite_self
    (fsWrite (fsWrite fs p (env.written 0) (env.writeMtime 0)) p
      (env.written 1) (env.writeMtime 1)) p (env.written 2) (env.writeMtime 2)
  simp only [writeFileFrom, e0, e1, e2, Option.map_some', Option.getD_some]
  rw [if_neg h0, if_neg h1, if_neg h2]
  simp

/-! ## Sibling-name lemmas -/

/-- A char list is covered by its base name, a separator slot and its
directory part. -/
theorem dirName_base_split (l : List Char) :
    l.length ≤ (dirNameChars l).length + 1 + (baseNameChars l).length := by
  have hlen : (l.reverse.takeWhile (fun ch => ch ≠ '/')).length +
      (l.reverse.dropWhile (fun ch => ch ≠ '/')).length = l.length := by
    rw [← List.length_append, List.takeWhile_append_dropWhile, List.length_reverse]
  have hbase : (baseNameChars l).length = (l.reverse.takeWhile (fun ch => ch ≠ '/')).length := by
    unfold baseNameChars
    rw [List.length_reverse]
  cases hdrop : l.reverse.dropWhile (fun ch => ch ≠ '/') with
  | nil =>
    have hdir : dirNameChars l = ['.'] := by
      unfold dirNameChars
      rw [hdrop]
    rw [hdrop] at hlen
    rw [hdir, hbase]
    simp only [List.length_nil, Nat.add_zero] at hlen
    simp only [List.length_cons, List.length_nil]
    omega
  | cons x t =>
    rw [hdrop] at hlen
    by_cases ht : t = []
    · have hdir : dirNameChars l = ['/'] := by
        unfold dirNameChars
        rw [hdrop]
        dsimp only
        rw [if_pos ht]
      rw [hdir, hbase]
      subst ht
      simp only [List.length_cons, List.length_nil] at hlen ⊢
      omega
    · have hdir : dirNameChars l = t.reverse := by
        unfold dirNameChars
        rw [hdrop]
        dsimp only
        rw [if_neg ht]
      rw [hdir, hbase]
      simp only [List.length_cons, List.length_reverse] at hlen ⊢
      omega

/-- A sibling name built from a nonempty decoration never equals the path it
decorates: it is strictly longer. -/
theorem sibling_ne (p pre suf : String) (h : 1 ≤ pre.length + suf.length) :
    pathJoin (dirName p) (pre ++ baseName p ++ suf) ≠ p := by
  intro he
  have hl := congrArg String.length he
  have hone : ("/" : String).length = 1 := rfl
  simp only [pathJoin, String.length_append, hone] at hl
  have hsp : p.length ≤ (dirName p).length + 1 + (baseName p).length :=
    dirName_base_split p.data
  omega

/-- The current and the legacy backup siblings differ (dot-dollar against
tilde-dollar decoration). -/
theorem bkp_ne_old (p : String) :
    pathJoin (dirName p) (".$" ++ baseName p ++ ".bkp") ≠
      pathJoin (dirName p) ("~$" ++ baseName p ++ ".bkp") := by
  intro he
  have hd := congrArg String.data he
  have h1 : (".$" : String).data = ['.', '$'] := rfl
  have h2 : ("~$" : String).data = ['~', '$'] := rfl
  simp only [pathJoin, String.data_append, List.append_assoc, h1, h2] at hd
  simp at hd

/-! ## C3 : conflict detection -/

/-- C3 counterexample: a call meeting all the stated conditions (overwrite
false, a supplied prior stat, an existing target whose on-disk mtime 5 differs
from the supplied 3) whose data fails the content allow-list raises
FILE_INVALID, not the FILE_CONFLICT the claim requires for every such call:
the validation gates run before the conflict check. -/
theorem c3_counterexample_invalid_data_not_conflict :
    (saveFile "/" "/opt/drawio" ⟨fun _ => "", fun _ => 0, 0⟩
        [("/home/u/d.drawio", ⟨"<mxfile>old</mxfile>", 1, 5⟩)] ⟨"/home/u/d.drawio"⟩
        "plain text" (some ⟨0, 3⟩) false true).res =
      .error ⟨"Invalid file data", .FILE_INVALID, "/home/u/d.drawio"⟩ ∧
    fsFind [("/home/u/d.drawio", ⟨"<mxfile>old</mxfile>", 1, 5⟩)] "/home/u/d.drawio" =
      some ⟨"<mxfile>old</mxfile>", 1, 5⟩ ∧
    (5 : Nat) ≠ 3 := by
  decide

/-- C3 amended: a saveFile call that passes the validation gates (path outside
the application directory, content allow-list and suspicious-pattern checks,
size cap), with overwrite false, a supplied prior stat and an existing target
whose current mtime differs from the supplied one, raises FILE_CONFLICT and
returns the filesystem unchanged: no write and no backup happen. -/
theorem c3_save_conflict_amended (cwd appBase : String) (env : WriteEnv) (fs : FS)
    (p data : String) (os : Stats) (e : FsEntry) (bkp : Bool)
    (hout : isOutsideAppDir cwd appBase p = true)
    (hchk : checkFileContentStr data = true)
    (hval : validateFileContent data = true)
    (hsize : validateFileSizeFs fs p = true)
    (hfind : fsFind fs p = some e)
    (hm : e.mtimeMs ≠ os.mtimeMs) :
    saveFile cwd appBase env fs ⟨p⟩ data (some os) false bkp =
      ⟨.error ⟨"File conflict detected", .FILE_CONFLICT, p⟩, fs, []⟩ := by
  have hex : existsSync fs p = true := by
    unfold existsSync
    rw [hfind]
    rfl
  have hst : statOf fs p = ⟨byteLen e.content, e.mtimeMs⟩ := statOf_eq_of_find _ _ _ hfind
  have hconf : isConflict (some os) (some (statOf fs p)) = true := by
    rw [hst]
    unfold isConflict
    simp [bne_iff_ne, hm]
  simp [saveFile, hout, hchk, hval, hsize, hex, hconf]

/-- C3 witness: a concrete conflicting save is rejected with FILE_CONFLICT and
the filesystem is returned unchanged. -/
theorem c3_save_conflict_amended_witness :
    saveFile "/" "/opt/drawio" ⟨fun _ => "", fun _ => 0, 0⟩
        [("/home/u/d.drawio", ⟨"<mxfile>old</mxfile>", 1, 5⟩)] ⟨"/home/u/d.drawio"⟩
        "<mxfile>new</mxfile>" (some ⟨0, 3⟩) false true =
      ⟨.error ⟨"File conflict detected", .FILE_CONFLICT, "/home/u/d.drawio"⟩,
        [("/home/u/d.drawio", ⟨"<mxfile>old</mxfile>", 1, 5⟩)], []⟩ :=
  c3_save_conflict_amended "/" "/opt/drawio" ⟨fun _ => "", fun _ => 0, 0⟩
    [("/home/u/d.drawio", ⟨"<mxfile>old</mxfile>", 1, 5⟩)] "/home/u/d.drawio"
    "<mxfile>new</mxfile>" ⟨0, 3⟩ ⟨"<mxfile>old</mxfile>", 1, 5⟩ true
    (by decide) (by decide) (by decide) (by decide) (by decide) (by decide)

/-! ## C4 : write verification and bounded retry -/

/-- C4: a saveFile reported successful always leaves the intended data on disk
at the target (the final read-back equals the intent) and returns the
post-write stat; and when the validation gates pass, overwrite is set, and all
three write attempts land corrupted content, the save fails permanently with
the verification error after sleeping the linear backoff delays 100 and 200. -/
theorem c4_write_verification (cwd appBase : String) (env : WriteEnv) (fs : FS)
    (p data : String) (origStat : Option Stats) (overwrite bkp : Bool) :
    (∀ st, (saveFile cwd appBase env fs ⟨p⟩ data origStat overwrite bkp).res = .ok st →
      ∃ ct mt,
        fsFind (saveFile cwd appBase env fs ⟨p⟩ data origStat overwrite bkp).fs p =
          some ⟨data, ct, mt⟩ ∧ st = ⟨byteLen data, mt⟩) ∧
    (isOutsideAppDir cwd appBase p = true → checkFileContentStr data = true →
      validateFileContent data = true → validateFileSizeFs fs p = true →
      data ≠ env.written 0 → data ≠ env.written 1 → data ≠ env.written 2 →
      overwrite = true →
      (saveFile cwd appBase env fs ⟨p⟩ data origStat overwrite bkp).res =
        .error ⟨"Write verification failed after retries", .FILE_INVALID, p⟩ ∧
      (saveFile cwd appBase env fs ⟨p⟩ data origStat overwrite bkp).delays = [100, 200]) := by
  have hop : pathJoin (dirName p) ("~$" ++ baseName p ++ ".bkp") ≠ p :=
    sibling_ne p "~$" ".bkp" (by decide)
  constructor
  · intro st h
    simp only [saveFile, doSaveFile] at h ⊢
    split_ifs at h ⊢
    all_goals try exact writeFileFrom_ok _ _ _ _ _ _ hop _ _ _ h
    all_goals (
      cases hf : fsFind fs p with
      | none =>
        try simp only [hf] at h ⊢
        exact writeFileFrom_ok _ _ _ _ _ _ hop _ _ _ h
      | some e =>
        try simp only [hf] at h ⊢
        exact writeFileFrom_ok _ _ _ _ _ _ hop _ _ _ h)
  · intro hout hchk hval hsize h0 h1 h2 hov
    subst hov
    have hfail := writeFileFrom_three_fail env p data
      (pathJoin (dirName p) ("~$" ++ baseName p ++ ".bkp")) false fs [] h0 h1 h2
    simp only [saveFile, doSaveFile, hout, hchk, hval, hsize, Bool.not_true, Bool.or_self,
      Bool.and_false, Bool.false_eq_true, if_false, if_true, ite_true, ite_false] at hfail ⊢
    simpa using hfail

/-- C4 witness: with the first two attempts corrupted and the third clean, the
save succeeds; with all three corrupted, it fails with delays 100 and 200. -/
theorem c4_write_verification_witness :
    (saveFile "/" "/opt/drawio" ⟨fun _ => "corrupt", fun i => 100 + i, 50⟩
        [] ⟨"/home/u/d.drawio"⟩ "<mxfile>a</mxfile>" none true true).res =
      .error ⟨"Write verification failed after retries", .FILE_INVALID, "/home/u/d.drawio"⟩ ∧
    (saveFile "/" "/opt/drawio" ⟨fun _ => "corrupt", fun i => 100 + i, 50⟩
        [] ⟨"/home/u/d.drawio"⟩ "<mxfile>a</mxfile>" none true true).delays = [100, 200] :=
  (c4_write_verification "/" "/opt/drawio" ⟨fun _ => "corrupt", fun i => 100 + i, 50⟩
    [] "/home/u/d.drawio" "<mxfile>a</mxfile>" none true true).2
    (by decide) (by decide) (by decide) (by decide)
    (by decide) (by decide) (by decide) rfl

/-! ## C5 : backup before overwrite -/

/-- C5 counterexample: a successful save with overwrite true over an existing
file, backups enabled, creates NO backup sibling: the overwrite path passes
isNew true unconditionally and the backup step is skipped, where the claim
requires the prior content to be copied for every such save. -/
theorem c5_counterexample_overwrite_skips_backup :
    (saveFile "/" "/opt/drawio" ⟨fun _ => "<mxfile>new</mxfile>", fun i => 100 + i, 50⟩
        [("/home/u/d.drawio", ⟨"<mxfile>old</mxfile>", 1, 5⟩)] ⟨"/home/u/d.drawio"⟩
        "<mxfile>new</mxfile>" none true true).res = .ok ⟨20, 100⟩ ∧
    existsSync [("/home/u/d.drawio", ⟨"<mxfile>old</mxfile>", 1, 5⟩)] "/home/u/d.drawio" = true ∧
    fsFind (saveFile "/" "/opt/drawio" ⟨fun _ => "<mxfile>new</mxfile>", fun i => 100 + i, 50⟩
        [("/home/u/d.drawio", ⟨"<mxfile>old</mxfile>", 1, 5⟩)] ⟨"/home/u/d.drawio"⟩
        "<mxfile>new</mxfile>" none true true).fs "/home/u/.$d.drawio.bkp" = none := by
  decide

/-- C5 amended: for every successful saveFile call with overwrite FALSE,
backups enabled and an existing target that passes the validation gates and
the conflict check, the prior target content is durably written to the backup
sibling (dot-dollar basename dot-bkp) and is still there after the target
write. Saves with overwrite true skip the backup step entirely. -/
theorem c5_backup_amended (cwd appBase : String) (env : WriteEnv) (fs : FS)
    (p data : String) (origStat : Option Stats) (e : FsEntry) (st : Stats)
    (hout : isOutsideAppDir cwd appBase p = true)
    (hchk : checkFileContentStr data = true)
    (hval : validateFileContent data = true)
    (hsize : validateFileSizeFs fs p = true)
    (hfind : fsFind fs p = some e)
    (hnc : isConflict origStat (some (statOf fs p)) = false)
    (_hok : (saveFile cwd appBase env fs ⟨p⟩ data origStat false true).res = .ok st) :
    ∃ ct, fsFind (saveFile cwd appBase env fs ⟨p⟩ data origStat false true).fs
        (pathJoin (dirName p) (".$" ++ baseName p ++ ".bkp")) =
      some ⟨e.content, ct, env.bkpMtime⟩ := by
  have hex : existsSync fs p = true := by
    unfold existsSync
    rw [hfind]
    rfl
  have hbp : pathJoin (dirName p) (".$" ++ baseName p ++ ".bkp") ≠ p :=
    sibling_ne p ".$" ".bkp" (by decide)
  have hbo : pathJoin (dirName p) (".$" ++ baseName p ++ ".bkp") ≠
      pathJoin (dirName p) ("~$" ++ baseName p ++ ".bkp") := bkp_ne_old p
  simp only [saveFile, doSaveFile, hout, hchk, hval, hsize, hex, hnc, hfind,
    Bool.not_true, Bool.or_self, Bool.and_false, Bool.and_true, Bool.not_false,
    Option.isSome_some, Option.isNone_some, Bool.true_and, Bool.and_self]
  simp only [Bool.false_eq_true, if_false, if_true]
  simp only [Option.isSome_some, hnc, Bool.and_false, Option.isNone_some, Bool.not_false,
    Bool.true_and, Bool.false_eq_true, if_false, if_true]
  rw [writeFileFrom_fs_other env p data _ true [0, 1, 2] _ hbp hbo]
  exact fsFind_fsWrite_self fs _ e.content env.bkpMtime

/-- C5 witness: a concrete no-overwrite save of an existing file leaves the
prior content in the backup sibling. -/
theorem c5_backup_amended_witness :
    ∃ ct, fsFind (saveFile "/" "/opt/drawio"
        ⟨fun _ => "<mxfile>new</mxfile>", fun i => 100 + i, 50⟩
        [("/home/u/d.drawio", ⟨"<mxfile>old</mxfile>", 1, 5⟩)] ⟨"/home/u/d.drawio"⟩
        "<mxfile>new</mxfile>" (some ⟨0, 5⟩) false true).fs
        (pathJoin (dirName "/home/u/d.drawio")
          (".$" ++ baseName "/home/u/d.drawio" ++ ".bkp")) =
      some ⟨"<mxfile>old</mxfile>", ct, 50⟩ :=
  c5_backup_amended "/" "/opt/drawio"
    ⟨fun _ => "<mxfile>new</mxfile>", fun i => 100 + i, 50⟩
    [("/home/u/d.drawio", ⟨"<mxfile>old</mxfile>", 1, 5⟩)] "/home/u/d.drawio"
    "<mxfile>new</mxfile>" (some ⟨0, 5⟩) ⟨"<mxfile>old</mxfile>", 1, 5⟩ ⟨20, 100⟩
    (by decide) (by decide) (by decide) (by decide) (by decide) (by decide) (by decide)

/-! ## C7 : draft enumeration -/

/-- C7: evaluation at the failing input. For a file with exactly one existing
current-format draft sibling (and no legacy drafts), getFileDrafts returns the
EMPTY list: the collection loop gathers the one draft path, but the read loop
of the source starts at index one and so never reads the first collected path.
The claim and the spec require the returned list to contain that draft. -/
theorem c7_first_draft_skipped :
    existsSync [("/home/u/d.drawio", ⟨"<mxfile>x</mxfile>", 1, 2⟩),
        ("/home/u/.$d.drawio.dtmp", ⟨"<mxfile>draft</mxfile>", 3, 4⟩)]
      "/home/u/.$d.drawio.dtmp" = true ∧
    (getFileDrafts 8 [("/home/u/d.drawio", ⟨"<mxfile>x</mxfile>", 1, 2⟩),
        ("/home/u/.$d.drawio.dtmp", ⟨"<mxfile>draft</mxfile>", 3, 4⟩)]
      "/home/u/d.drawio").2 = [] := by
  decide

/-! ## C9 : sanitizeFilename idempotence analysis -/

/-- Whitespace chars surviving the collapse are all plain spaces. -/
theorem collapse_ws_space (l : List Char) :
    ∀ (b : Bool), ∀ c ∈ collapseWsAux b l, isJsWs c = true → c = ' ' := by
  induction l with
  | nil =>
    intro b c hc
    simp [collapseWsAux] at hc
  | cons ch rest ih =>
    intro b c hc hw
    cases b with
    | true =>
      by_cases hch : isJsWs ch = true
      · simp only [collapseWsAux, hch, if_true] at hc
        exact ih true c hc hw
      · simp [collapseWsAux, hch] at hc
        rcases hc with rfl | hc
        · exact absurd hw hch
        · exact ih false c hc hw
    | false =>
      by_cases hch : isJsWs ch = true
      · simp [collapseWsAux, hch] at hc
        rcases hc with rfl | hc
        · rfl
        · exact ih true c hc hw
      · simp [collapseWsAux, hch] at hc
        rcases hc with rfl | hc
        · exact absurd hw hch
        · exact ih false c hc hw

/-- Every char of the collapse output is a space or a char of the input. -/
theorem collapse_mem (l : List Char) :
    ∀ (b : Bool), ∀ c ∈ collapseWsAux b l, c = ' ' ∨ c ∈ l := by
  induction l with
  | nil =>
    intro b c hc
    simp [collapseWsAux] at hc
  | cons ch rest ih =>
    intro b c hc
    cases b with
    | true =>
      by_cases hch : isJsWs ch = true
      · simp only [collapseWsAux, hch, if_true] at hc
        rcases ih true c hc with h | h
        · exact Or.inl h
        · exact Or.inr (List.mem_cons_of_mem _ h)
      · simp [collapseWsAux, hch] at hc
        rcases hc with rfl | hc
        · exact Or.inr (List.mem_cons_self _ _)
        · rcases ih false c hc with h | h
          · exact Or.inl h
          · exact Or.inr (List.mem_cons_of_mem _ h)
    | false =>
      by_cases hch : isJsWs ch = true
      · simp [collapseWsAux, hch] at hc
        rcases hc with rfl | hc
        · exact Or.inl rfl
        · rcases ih true c hc with h | h
          · exact Or.inl h
          · exact Or.inr (List.mem_cons_of_mem _ h)
      · simp [collapseWsAux, hch] at hc
        rcases hc with rfl | hc
        · exact Or.inr (List.mem_cons_self _ _)
        · rcases ih false c hc with h | h
          · exact Or.inl h
          · exact Or.inr (List.mem_cons_of_mem _ h)

/-- After a replaced run, the next emitted char is not whitespace. -/
theorem collapse_head_true (l : List Char) :
    ∀ c, (collapseWsAux true l).head? = some c → isJsWs c = false := by
  induction l with
  | nil =>
    intro c hc
    simp [collapseWsAux] at hc
  | cons ch rest ih =>
    intro c hc
    by_cases hch : isJsWs ch = true
    · simp only [collapseWsAux, hch, if_true] at hc
      exact ih c hc
    · simp [collapseWsAux, hch] at hc
      rw [← hc]
      exact Bool.eq_false_iff.mpr hch

/-- The collapse output never holds two adjacent whitespace chars. -/
theorem collapse_chain (l : List Char) :
    ∀ b, List.Chain' noWsPair (collapseWsAux b l) := by
  induction l with
  | nil =>
    intro b
    simp only [collapseWsAux]
    exact List.chain'_nil
  | cons ch rest ih =>
    intro b
    cases b with
    | true =>
      by_cases hch : isJsWs ch = true
      · simpa only [collapseWsAux, hch, if_true] using ih true
      · have heq : collapseWsAux true (ch :: rest) = ch :: collapseWsAux false rest := by
          simp [collapseWsAux, hch]
        rw [heq, List.chain'_cons']
        refine ⟨?_, ih false⟩
        intro y _ hpair
        exact hch hpair.1
    | false =>
      by_cases hch : isJsWs ch = true
      · have heq : collapseWsAux false (ch :: rest) = ' ' :: collapseWsAux true rest := by
          simp [collapseWsAux, hch]
        rw [heq, List.chain'_cons']
        refine ⟨?_, ih true⟩
        intro y hy hpair
        have hyf := collapse_head_true rest y hy
        rw [hyf] at hpair
        exact absurd hpair.2 (by simp)
      · have heq : collapseWsAux false (ch :: rest) = ch :: collapseWsAux false rest := by
          simp [collapseWsAux, hch]
        rw [heq, List.chain'_cons']
        refine ⟨?_, ih false⟩
        intro y _ hpair
        exact hch hpair.1

/-- The collapse is the identity on a list whose whitespace chars are plain
spaces with no two adjacent. -/
theorem collapse_id (t : List Char)
    (hws : ∀ c ∈ t, isJsWs c = true → c = ' ')
    (hchain : List.Chain' noWsPair t) :
    collapseWsAux false t = t := by
  induction t with
  | nil => rfl
  | cons c rest ih =>
    by_cases hc : isJsWs c = true
    · have hsp : c = ' ' := hws c (List.mem_cons_self _ _) hc
      cases rest with
      | nil => simp [collapseWsAux, hc, hsp]
      | cons d rest2 =>
        have hrel := (List.chain'_cons.mp hchain).1
        have hd : isJsWs d = false := by
          cases hdd : isJsWs d
          · rfl
          · exact absurd ⟨hc, hdd⟩ hrel
        have hrest : collapseWsAux false (d :: rest2) = d :: rest2 :=
          ih (fun x hx hxw => hws x (List.mem_cons_of_mem _ hx) hxw)
            (List.chain'_cons.mp hchain).2
        have hrest2 : collapseWsAux false rest2 = rest2 := by
          have : collapseWsAux false (d :: rest2) = d :: collapseWsAux false rest2 := by
            simp [collapseWsAux, hd]
          rw [this] at hrest
          exact List.cons.injEq _ _ _ _ ▸ hrest |>.2
        have : collapseWsAux false (c :: d :: rest2) = ' ' :: d :: collapseWsAux false rest2 := by
          simp [collapseWsAux, hc, hd]
        rw [this, hrest2, hsp]
    · have hcf : isJsWs c = false := Bool.eq_false_iff.mpr hc
      have : collapseWsAux false (c :: rest) = c :: collapseWsAux false rest := by
        simp [collapseWsAux, hcf]
      rw [this, ih (fun x hx hxw => hws x (List.mem_cons_of_mem _ hx) hxw) hchain.tail]

/-- Trimming only keeps chars of the input. -/
theorem trim_subset (l : List Char) : ∀ c ∈ trimChars l, c ∈ l := by
  intro c hc
  unfold trimChars at hc
  rw [List.mem_reverse] at hc
  have h1 := List.dropWhile_subset (l := (l.dropWhile isJsWs).reverse) isJsWs hc
  rw [List.mem_reverse] at h1
  exact List.dropWhile_subset isJsWs h1

/-- Trimming preserves the no-two-whitespace invariant. -/
theorem trim_chain (l : List Char) (h : List.Chain' noWsPair l) :
    List.Chain' noWsPair (trimChars l) := by
  unfold trimChars
  have hsymm : ∀ a b : Char, noWsPair a b → noWsPair b a := by
    intro a b hab hpair
    exact hab ⟨hpair.2, hpair.1⟩
  have h1 : List.Chain' noWsPair (l.dropWhile isJsWs) :=
    h.suffix (List.dropWhile_suffix _)
  have h2 : List.Chain' noWsPair ((l.dropWhile isJsWs).reverse) := by
    rw [List.chain'_reverse]
    exact h1.imp hsymm
  have h3 : List.Chain' noWsPair (((l.dropWhile isJsWs).reverse).dropWhile isJsWs) :=
    h2.suffix (List.dropWhile_suffix _)
  rw [List.chain'_reverse]
  exact h3.imp hsymm

/-- The first char of a trimmed list is not whitespace. -/
theorem trim_head (l : List Char) :
    ∀ c, (trimChars l).head? = some c → isJsWs c = false := by
  intro c hc
  unfold trimChars at hc
  rw [List.head?_reverse] at hc
  obtain ⟨pre, hpre⟩ := List.dropWhile_suffix (l := (l.dropWhile isJsWs).reverse) isJsWs
  have hgl : ((l.dropWhile isJsWs).reverse).getLast? = some c := by
    rw [← hpre, List.getLast?_append, hc]
    rfl
  rw [List.getLast?_reverse] at hgl
  have H := List.head?_dropWhile_not isJsWs l
  rw [hgl] at H
  exact H

/-- The last char of a trimmed list is not whitespace. -/
theorem trim_last (l : List Char) :
    ∀ c, (trimChars l).getLast? = some c → isJsWs c = false := by
  intro c hc
  unfold trimChars at hc
  rw [List.getLast?_reverse] at hc
  have H := List.head?_dropWhile_not isJsWs ((l.dropWhile isJsWs).reverse)
  rw [hc] at H
  exact H

/-- Trimming is the identity when neither end is whitespace. -/
theorem trim_id (t : List Char)
    (hhead : ∀ c, t.head? = some c → isJsWs c = false)
    (hlast : ∀ c, t.getLast? = some c → isJsWs c = false) :
    trimChars t = t := by
  unfold trimChars
  have h1 : t.dropWhile isJsWs = t := by
    cases t with
    | nil => rfl
    | cons c rest =>
      rw [List.dropWhile_cons_of_neg]
      simp [hhead c rfl]
  rw [h1]
  have h2 : t.reverse.dropWhile isJsWs = t.reverse := by
    cases ht : t.reverse with
    | nil => rfl
    | cons c rest =>
      rw [List.dropWhile_cons_of_neg]
      have hcl : t.getLast? = some c := by
        rw [← List.head?_reverse, ht]
        rfl
      simp [hlast c hcl]
  rw [h2, List.reverse_reverse]

/-- sanitizeFilename fixes every list already in cleaned shape: no separators
or removed chars, whitespace normalized to isolated spaces, trimmed ends,
within the length cap and not empty or all dots. -/
theorem sanitize_fixed (t : List Char)
    (hsep : ∀ c ∈ t, isSepChar c = false)
    (hdan : ∀ c ∈ t, isDangerChar c = false)
    (hws : ∀ c ∈ t, isJsWs c = true → c = ' ')
    (hchain : List.Chain' noWsPair t)
    (hhead : ∀ c, t.head? = some c → isJsWs c = false)
    (hlast : ∀ c, t.getLast? = some c → isJsWs c = false)
    (hlen : t.length ≤ 255)
    (hne : (t.isEmpty || t.all (fun ch => ch = '.')) = false) :
    sanitizeFilename (String.mk t) = String.mk t := by
  have hpipe : sanitizePipeline t = t := by
    unfold sanitizePipeline
    have hf1 : t.filter (fun ch => !(isSepChar ch)) = t :=
      List.filter_eq_self.mpr (fun a ha => by rw [hsep a ha]; rfl)
    have hf2 : t.filter (fun ch => !(isDangerChar ch)) = t :=
      List.filter_eq_self.mpr (fun a ha => by rw [hdan a ha]; rfl)
    rw [hf1, hf2]
    show trimChars (collapseWsAux false t) = t
    rw [collapse_id t hws hchain]
    exact trim_id t hhead hlast
  have hdata : (String.mk t).data = t := rfl
  have hs5 : (if t.length > 255 then t.take 255 else t) = t := if_neg (by omega)
  simp only [sanitizeFilename, hdata, hpipe, hs5]
  rw [if_neg (by simp [hne])]

/-- C9 counterexample: for 254 letters, a space and one more letter, the first
sanitizeFilename application truncates right after the space, so the result
ends in a space that the second application trims away: sanitizeFilename is
not idempotent. -/
theorem c9_counterexample_truncation :
    sanitizeFilename (sanitizeFilename (String.mk (List.replicate 254 'a' ++ [' ', 'b']))) ≠
      sanitizeFilename (String.mk (List.replicate 254 'a' ++ [' ', 'b'])) := by
  decide

/-- C9 amended: sanitizeFilename is idempotent on every input whose cleaned
form (after the removals, the whitespace collapse and the trim) fits in 255
chars, that is, whenever the truncation step does not fire. -/
theorem c9_sanitize_idempotent_amended (s : String)
    (h : (sanitizePipeline s.data).length ≤ 255) :
    sanitizeFilename (sanitizeFilename s) = sanitizeFilename s := by
  by_cases hb : ((sanitizePipeline s.data).isEmpty ||
      (sanitizePipeline s.data).all (fun ch => ch = '.')) = true
  · have hs5 : (if (sanitizePipeline s.data).length > 255
        then (sanitizePipeline s.data).take 255 else sanitizePipeline s.data) =
        sanitizePipeline s.data := if_neg (by omega)
    have h1 : sanitizeFilename s = "unnamed" := by
      simp only [sanitizeFilename, hs5]
      rw [if_pos hb]
    rw [h1]
    decide
  · have hbf : ((sanitizePipeline s.data).isEmpty ||
        (sanitizePipeline s.data).all (fun ch => ch = '.')) = false :=
      Bool.eq_false_iff.mpr hb
    have hs5 : (if (sanitizePipeline s.data).length > 255
        then (sanitizePipeline s.data).take 255 else sanitizePipeline s.data) =
        sanitizePipeline s.data := if_neg (by omega)
    have h1 : sanitizeFilename s = String.mk (sanitizePipeline s.data) := by
      simp only [sanitizeFilename, hs5]
      rw [if_neg hb]
    rw [h1]
    have ht : sanitizePipeline s.data =
        trimChars (collapseWsAux false
          ((s.data.filter (fun ch => !(isSepChar ch))).filter
            (fun ch => !(isDangerChar ch)))) := rfl
    refine sanitize_fixed _ ?_ ?_ ?_ ?_ ?_ ?_ h hbf
    · intro c hc
      rw [ht] at hc
      rcases collapse_mem _ false c (trim_subset _ c hc) with rfl | hmem
      · decide
      · have h1f := (List.mem_filter.mp (List.mem_filter.mp hmem).1).2
        simpa using h1f
    · intro c hc
      rw [ht] at hc
      rcases collapse_mem _ false c (trim_subset _ c hc) with rfl | hmem
      · decide
      · have h2f := (List.mem_filter.mp hmem).2
        simpa using h2f
    · intro c hc hw
      rw [ht] at hc
      exact collapse_ws_space _ false c (trim_subset _ c hc) hw
    · rw [ht]
      exact trim_chain _ (collapse_chain _ false)
    · intro c hc
      rw [ht] at hc
      exact trim_head _ c hc
    · intro c hc
      rw [ht] at hc
      exact trim_last _ c hc

/-- C9 witness: a concrete small input is a fixed point after one pass. -/
theorem c9_sanitize_idempotent_amended_witness :
    sanitizeFilename (sanitizeFilename "  draft   file.drawio  ") =
      sanitizeFilename "  draft   file.drawio  " :=
  c9_sanitize_idempotent_amended "  draft   file.drawio  " (by decide)

end Drawio
